import Mathlib

/-!
Verification of the `FilterList` widget core
(`app/src/ui/lib/filter-list.tsx`).

Strings that participate in filtering are modelled as `List Char`; item
identifiers, which are only compared for equality, are modelled as `String`.
JavaScript's `null`/`undefined` are modelled with `Option`, and the
`TypeError` raised by reading a property of `undefined` is modelled with
`Except Unit`.
-/

set_option autoImplicit false

universe u

/-- Lower-cases every character, modelling `String.prototype.toLowerCase`
as used on the ASCII identifiers and filter strings of the widget. -/
def jsToLower (s : List Char) : List Char :=
  s.map Char.toLower

/-- Does `s` start with `sub`?  Auxiliary for `jsIncludes`. -/
def startsWithCL : List Char → List Char → Bool
  | _, [] => true
  | [], _ :: _ => false
  | c :: cs, d :: ds => c == d && startsWithCL cs ds

/-- Substring containment, modelling `String.prototype.includes`:
`jsIncludes s sub` is true when `sub` occurs contiguously inside `s`
(the empty string occurs in every string). -/
def jsIncludes : List Char → List Char → Bool
  | [], sub => sub.isEmpty
  | c :: cs, sub => startsWithCL (c :: cs) sub || jsIncludes cs sub

/-- Whitespace character class of JavaScript's `\\s` regex escape, by code
point: tab through carriage return, space, no-break space, ogham space mark,
the en-quad..hair-space range, line and paragraph separators, narrow
no-break space, medium mathematical space, ideographic space, and the BOM. -/
def jsIsSpace (c : Char) : Bool :=
  (0x09 <= c.val && c.val <= 0x0d) || c.val == 0x20 || c.val == 0xa0 ||
  c.val == 0x1680 || (0x2000 <= c.val && c.val <= 0x200a) ||
  c.val == 0x2028 || c.val == 0x2029 || c.val == 0x202f ||
  c.val == 0x205f || c.val == 0x3000 || c.val == 0xfeff

/-- Result of `/\S/.test s`: does `s` contain a non-whitespace character? -/
def hasNonSpace (s : List Char) : Bool :=
  s.any (fun c => !jsIsSpace c)

/-- An item in the filter list (`IFilterListItem`): `text` is the filter
match target, `id` uniquely identifies the item. -/
structure IFilterListItem where
  text : List Char
  id : String
  deriving DecidableEq, Repr

/-- A group of items in the list (`IFilterListGroup`). -/
structure IFilterListGroup where
  identifier : String
  items : List IFilterListItem
  deriving DecidableEq, Repr

/-- A row in the list after the user-provided groups are flattened
(`IFilterListRow`): a group header (`kind: 'group'`) or an item row
(`kind: 'item'`). -/
inductive IFilterListRow where
  | group (identifier : String)
  | item (item : IFilterListItem)
  deriving DecidableEq, Repr

/-- The props of `FilterList` that the core logic reads.  Optional render
and event callbacks are modelled by their presence (`Bool`), since the core
only ever tests them for presence before invoking them.  `disabled` is the
truthiness of the optional `disabled` prop. -/
structure IFilterListProps where
  groups : List IFilterListGroup
  selectedItem : Option IFilterListItem
  filterText : Option (List Char)
  renderGroupHeader : Bool
  disabled : Bool
  onItemClick : Bool
  onSelectionChanged : Bool
  deriving DecidableEq, Repr

/-- The component state (`IFilterListState`): the flattened rows and the
selected row index (`-1` meaning no selection, as in the source). -/
structure IFilterListState where
  rows : List IFilterListRow
  selectedRow : Int
  deriving DecidableEq, Repr

/-- The source of a selection change (`SelectionSource`): the list's own
pointer/keyboard handling, or a filter-text-driven reconciliation carrying
the filter text (`IFilterSelectionSource`). -/
inductive SelectionSource where
  | pointerOrKeyboard
  | filter (filterText : List Char)
  deriving DecidableEq, Repr

/-- JavaScript `findIndex`: index of the first element satisfying `p`,
or `-1` when none does. -/
def jsFindIndex {α : Type u} (p : α → Bool) : List α → Int
  | [] => -1
  | x :: xs =>
    if p x then 0
    else
      let r := jsFindIndex p xs
      if r < 0 then -1 else r + 1

/-- JavaScript array subscript `l[i]`: `none` models the `undefined` result
for a negative or out-of-range index. -/
def jsIndex {α : Type u} (l : List α) (i : Int) : Option α :=
  if 0 ≤ i then l.get? i.toNat else none

/-- The filter predicate of `createStateUpdate`:
`i => i.text.toLowerCase().includes(filter)` (line 387-389). -/
def itemMatches (filter : List Char) (i : IFilterListItem) : Bool :=
  jsIncludes (jsToLower i.text) filter

/-- Is a row an item row? -/
def isItemRow : IFilterListRow → Bool
  | IFilterListRow.item _ => true
  | IFilterListRow.group _ => false

/-- The flattening loop of `createStateUpdate` (lines 383-402): for each
group in order, filter its items; skip the group entirely when nothing
matches, otherwise push a group header when `renderGroupHeader` is present
followed by one item row per matching item. -/
def flattenRows (hasHeader : Bool) (filter : List Char) :
    List IFilterListGroup → List IFilterListRow
  | [] => []
  | g :: gs =>
    let items := g.items.filter (itemMatches filter)
    (if items.length == 0 then []
     else
       (if hasHeader then [IFilterListRow.group g.identifier] else []) ++
         items.map IFilterListRow.item) ++
      flattenRows hasHeader filter gs

/-- `createStateUpdate` (lines 380-419): flatten the groups against the
lower-cased filter text (empty when absent), then locate the selected row:
the first item row carrying `selectedItem`'s id when `selectedItem` is
present, falling back — only when the filter is non-empty — to the first
item row, and `-1` otherwise. -/
def createStateUpdate (props : IFilterListProps) : IFilterListState :=
  let filter := jsToLower (props.filterText.getD [])
  let flattenedRows := flattenRows props.renderGroupHeader filter props.groups
  let selectedRow :=
    match props.selectedItem with
    | some selectedItem =>
      jsFindIndex
        (fun i =>
          match i with
          | IFilterListRow.item it => it.id == selectedItem.id
          | IFilterListRow.group _ => false)
        flattenedRows
    | none => (-1 : Int)
  let selectedRow :=
    if selectedRow < 0 ∧ filter.length ≠ 0 then
      jsFindIndex isItemRow flattenedRows
    else selectedRow
  { rows := flattenedRows, selectedRow := selectedRow }

/-- `getItemFromRowIndex` (lines 421-434): bounds-checked lookup returning
the item at `index`, or `null` for an out-of-range index or a group row. -/
def getItemFromRowIndex (items : List IFilterListRow) (index : Int) :
    Option IFilterListItem :=
  if 0 ≤ index ∧ index < (items.length : Int) then
    match items.get? index.toNat with
    | some (IFilterListRow.item it) => some it
    | _ => none
  else none

/-- `getItemIdFromRowIndex` (lines 436-442): the id of the item at `index`,
or `null`. -/
def getItemIdFromRowIndex (items : List IFilterListRow) (index : Int) :
    Option String :=
  match getItemFromRowIndex items index with
  | some it => some it.id
  | none => none

/-- `FilterList.componentDidUpdate` (lines 247-278), with the
`onSelectionChanged` callback present iff `hasCallback`: compares the item
id at the previous and at the new selected row; when they differ and the
new id also differs from the `selectedItem` prop's id, the callback fires
with the newly selected item (or `null`) and a `'filter'` source carrying
`filterText || ''`.  The result is the notification delivered, or `none`
when the callback does not fire. -/
def componentDidUpdate (hasCallback : Bool)
    (selectedItem : Option IFilterListItem) (filterText : Option (List Char))
    (prevState state : IFilterListState) :
    Option (Option IFilterListItem × SelectionSource) :=
  if hasCallback then
    let oldSelectedItemId := getItemIdFromRowIndex prevState.rows prevState.selectedRow
    let newSelectedItemId := getItemIdFromRowIndex state.rows state.selectedRow
    if oldSelectedItemId ≠ newSelectedItemId then
      let propSelectionId :=
        match selectedItem with
        | some it => some it.id
        | none => none
      if propSelectionId ≠ newSelectedItemId then
        some (getItemFromRowIndex state.rows state.selectedRow,
          SelectionSource.filter (filterText.getD []))
      else none
    else none
  else none

/-- `FilterList.canSelectRow` (lines 280-287): `false` when disabled;
otherwise reads `this.state.rows[index].kind`.  An out-of-range subscript
yields `undefined` there, so the `.kind` access throws a `TypeError`,
modelled as `Except.error ()`. -/
def canSelectRow (disabled : Bool) (rows : List IFilterListRow)
    (index : Int) : Except Unit Bool :=
  if disabled then Except.ok false
  else
    match jsIndex rows index with
    | some (IFilterListRow.item _) => Except.ok true
    | some (IFilterListRow.group _) => Except.ok false
    | none => Except.error ()

/-- Selectability at an in-range index, as the mounted `List` control
queries it: not disabled and the row at `r` is an item row.  Agrees with
`canSelectRow` on every in-range index (see `canSelectRow_in_range`). -/
def canSelectRowB (disabled : Bool) (rows : List IFilterListRow)
    (r : Nat) : Bool :=
  if disabled then false
  else
    match rows.get? r with
    | some (IFilterListRow.item _) => true
    | _ => false

/-- `FilterList.onRowClick` (lines 289-297), with the `onItemClick`
callback present iff `hasItemClick`: reads `this.state.rows[index]` and
invokes the callback when the row is an item row.  The result is the item
the callback receives, `none` when no click is delivered, and
`Except.error ()` for the `TypeError` on an out-of-range subscript. -/
def onRowClick (hasItemClick : Bool) (rows : List IFilterListRow)
    (index : Int) : Except Unit (Option IFilterListItem) :=
  if hasItemClick then
    match jsIndex rows index with
    | some (IFilterListRow.item it) => Except.ok (some it)
    | some (IFilterListRow.group _) => Except.ok none
    | none => Except.error ()
  else Except.ok none

/-- `FilterList.onSelectionChanged` (lines 202-211), with the
`onSelectionChanged` callback present iff `hasCallback`: stores the new
index via `setState` (first component) and, when the callback is present,
reads `this.state.rows[index]` and notifies with the item when the row is
an item row (second component).  `Except.error ()` models the `TypeError`
on an out-of-range subscript. -/
def onSelectionChangedHandler (hasCallback : Bool)
    (rows : List IFilterListRow) (index : Int) :
    Except Unit (Int × Option IFilterListItem) :=
  if hasCallback then
    match jsIndex rows index with
    | some (IFilterListRow.item it) => Except.ok (index, some it)
    | some (IFilterListRow.group _) => Except.ok (index, none)
    | none => Except.error ()
  else Except.ok (index, none)

/-- Scan direction of the list control's `nextSelectableRow`. -/
inductive NavDirection where
  | up
  | down
  deriving DecidableEq, Repr

/-- Modelled from the spec: the `List` control collaborator (not under
`src/`) exposes `nextSelectableRow(direction: up|down, fromIndex) ->
index-or-null`, the "next selectable in direction D starting just past
position P" with wraparound, which the widget invokes as `('down', -1)`
for "the first selectable row scanning downward from the top" and as
`('up', 0)` for "the first selectable row scanning upward from the
bottom". -/
def nextSelectableRow (canSelect : Nat → Bool) (rowCount : Nat)
    (dir : NavDirection) (fromRow : Int) : Option Nat :=
  if rowCount == 0 then none
  else
    let delta : Int :=
      match dir with
      | NavDirection.down => 1
      | NavDirection.up => -1
    (List.range rowCount).findSome? fun (i : Nat) =>
      let r := ((fromRow + ((i : Int) + 1) * delta) % (rowCount : Int)).toNat
      if canSelect r then some r else none

/-- Keys the filter input's key handler distinguishes. -/
inductive PressedKey where
  | arrowUp
  | arrowDown
  | enter
  | other
  deriving DecidableEq, Repr

/-- Observable effects of `FilterList.onKeyDown`: the final
`defaultPrevented` state of the event, the `setState` target for
`selectedRow` (`none` when selection is untouched), whether focus moved
into the list, and the item delivered to `onItemClick`. -/
structure KeyDownEffects where
  prevented : Bool
  newSelectedRow : Option Nat
  focusList : Bool
  clicked : Option IFilterListItem
  deriving DecidableEq, Repr

/-- Observable effects of `FilterList.onRowKeyDown`: the final
`defaultPrevented` state, the `setState` target for `selectedRow`
(always `none`: the handler never changes selection), and whether focus
moved to the filter input. -/
structure RowKeyDownEffects where
  prevented : Bool
  newSelectedRow : Option Nat
  focusInput : Bool
  deriving DecidableEq, Repr

/-- `FilterList.onKeyDown` (lines 323-377), the key handler of the filter
input, with the list and input handles mounted.  `callerPrevented` is
whether the caller's `onFilterKeyDown` handler cancelled the event.
ArrowDown/ArrowUp move selection to the first/last selectable row and
focus the list, always suppressing the input's default.  Enter bails out
(suppressing default) when there are no rows or when a defined filter text
has no non-whitespace character; otherwise it clicks
`nextSelectableRow('down', -1)` — but only when that index is truthy,
i.e. non-null and non-zero (`if (row)`, line 373). -/
def onKeyDown (props : IFilterListProps) (state : IFilterListState)
    (key : PressedKey) (callerPrevented : Bool) :
    Except Unit KeyDownEffects :=
  if callerPrevented then Except.ok ⟨true, none, false, none⟩
  else
    let canSel := canSelectRowB props.disabled state.rows
    match key with
    | PressedKey.arrowDown =>
      if state.rows.length > 0 then
        match nextSelectableRow canSel state.rows.length NavDirection.down (-1) with
        | some selectedRow => Except.ok ⟨true, some selectedRow, true, none⟩
        | none => Except.ok ⟨true, none, false, none⟩
      else Except.ok ⟨true, none, false, none⟩
    | PressedKey.arrowUp =>
      if state.rows.length > 0 then
        match nextSelectableRow canSel state.rows.length NavDirection.up 0 with
        | some selectedRow => Except.ok ⟨true, some selectedRow, true, none⟩
        | none => Except.ok ⟨true, none, false, none⟩
      else Except.ok ⟨true, none, false, none⟩
    | PressedKey.enter =>
      if state.rows.length == 0 then Except.ok ⟨true, none, false, none⟩
      else if (match props.filterText with
               | some t => !hasNonSpace t
               | none => false) then Except.ok ⟨true, none, false, none⟩
      else
        match nextSelectableRow canSel state.rows.length NavDirection.down (-1) with
        | some row =>
          if row != 0 then
            match onRowClick props.onItemClick state.rows (row : Int) with
            | Except.ok clicked => Except.ok ⟨false, none, false, clicked⟩
            | Except.error e => Except.error e
          else Except.ok ⟨false, none, false, none⟩
        | none => Except.ok ⟨false, none, false, none⟩
    | PressedKey.other => Except.ok ⟨false, none, false, none⟩

/-- `FilterList.onRowKeyDown` (lines 299-321), the key handler for keys
pressed while focus is inside the list, with the list and input handles
mounted: ArrowUp on the first selectable row, or ArrowDown on the last
selectable row, cancels the event and moves focus to the filter input;
the handler never changes `selectedRow`. -/
def onRowKeyDown (disabled : Bool) (rows : List IFilterListRow)
    (row : Nat) (key : PressedKey) : RowKeyDownEffects :=
  let canSel := canSelectRowB disabled rows
  let firstSelectableRow := nextSelectableRow canSel rows.length NavDirection.down (-1)
  let lastSelectableRow := nextSelectableRow canSel rows.length NavDirection.up 0
  let focusInput :=
    if key == PressedKey.arrowUp && firstSelectableRow == some row then true
    else key == PressedKey.arrowDown && lastSelectableRow == some row
  if focusInput then ⟨true, none, true⟩ else ⟨false, none, false⟩

/-- First selectable index among `0, 1, …, n-1`, scanning upward from `0`:
reference form of `nextSelectableRow ('down', -1)`. -/
def firstSelIdx (c : Nat → Bool) : Nat → Option Nat
  | 0 => none
  | n + 1 =>
    match firstSelIdx c n with
    | some r => some r
    | none => if c n then some n else none

/-- Last selectable index among `0, 1, …, n-1`, scanning downward from
`n-1`: reference form of `nextSelectableRow ('up', 0)`. -/
def lastSelIdx (c : Nat → Bool) : Nat → Option Nat
  | 0 => none
  | n + 1 => if c n then some n else lastSelIdx c n

theorem jsToLower_length (s : List Char) : (jsToLower s).length = s.length := by
  simp [jsToLower]

theorem jsToLower_eq_nil {s : List Char} : jsToLower s = [] ↔ s = [] := by
  simp [jsToLower]

theorem jsFindIndex_eq_neg_one {α : Type u} {p : α → Bool} {l : List α}
    (h : ∀ x ∈ l, p x = false) : jsFindIndex p l = -1 := by
  induction l with
  | nil => rfl
  | cons x xs ih =>
    have hx : p x = false := h x (by simp)
    have hxs : jsFindIndex p xs = -1 := ih fun y hy => h y (by simp [hy])
    simp [jsFindIndex, hx, hxs]

theorem jsFindIndex_eq_of_first {α : Type u} {p : α → Bool} {l : List α}
    {n : Nat} {r : α} (hget : l.get? n = some r) (hp : p r = true)
    (hmin : ∀ m r', m < n → l.get? m = some r' → p r' = false) :
    jsFindIndex p l = (n : Int) := by
  induction l generalizing n with
  | nil => simp at hget
  | cons x xs ih =>
    cases n with
    | zero =>
      simp only [List.get?_cons_zero, Option.some.injEq] at hget
      subst hget
      simp [jsFindIndex, hp]
    | succ m =>
      have hx : p x = false := hmin 0 x (Nat.succ_pos m) rfl
      have hrec : jsFindIndex p xs = (m : Int) :=
        ih (by simpa using hget)
          (fun k r' hk hget' => hmin (k + 1) r' (Nat.succ_lt_succ hk)
            (by simpa using hget'))
      simp [jsFindIndex, hx, hrec]

theorem jsFindIndex_nonneg_spec {α : Type u} {p : α → Bool} {l : List α}
    (h : 0 ≤ jsFindIndex p l) :
    ∃ k : Nat, jsFindIndex p l = (k : Int) ∧
      ∃ r, l.get? k = some r ∧ p r = true := by
  induction l with
  | nil => simp [jsFindIndex] at h
  | cons x xs ih =>
    by_cases hx : p x = true
    · exact ⟨0, by simp [jsFindIndex, hx], x, rfl, hx⟩
    · have hx' : p x = false := by simpa using hx
      by_cases hr : jsFindIndex p xs < 0
      · exfalso
        have : jsFindIndex p (x :: xs) = -1 := by simp [jsFindIndex, hx', hr]
        omega
      · push_neg at hr
        obtain ⟨k, hk, r, hget, hpr⟩ := ih hr
        refine ⟨k + 1, ?_, r, by simpa using hget, hpr⟩
        simp [jsFindIndex, hx', hk]

theorem jsIndex_natCast {α : Type u} (l : List α) (r : Nat) :
    jsIndex l (r : Int) = l.get? r := by
  simp [jsIndex]

theorem jsIndex_eq_none_of_out {α : Type u} {l : List α} {i : Int}
    (h : i < 0 ∨ (l.length : Int) ≤ i) : jsIndex l i = none := by
  rcases h with h | h
  · simp [jsIndex]
    omega
  · unfold jsIndex
    by_cases h0 : 0 ≤ i
    · have hlen : l.length ≤ i.toNat := by omega
      rw [if_pos h0]
      exact List.get?_eq_none.mpr hlen
    · simp [h0]

theorem canSelectRow_in_range (disabled : Bool)
    (rows : List IFilterListRow) (r : Nat) (h : r < rows.length) :
    canSelectRow disabled rows (r : Int) =
      Except.ok (canSelectRowB disabled rows r) := by
  unfold canSelectRow canSelectRowB
  by_cases hd : disabled
  · simp [hd]
  · simp only [hd, if_false, jsIndex_natCast]
    cases hrow : rows.get? r with
    | none =>
      exact absurd (List.get?_eq_none.mp hrow) (by omega)
    | some row => cases row <;> rfl

theorem findSome?_congr {α β : Type u} {f g : α → Option β} (l : List α)
    (h : ∀ a ∈ l, f a = g a) : l.findSome? f = l.findSome? g := by
  induction l with
  | nil => rfl
  | cons x xs ih =>
    simp only [List.findSome?]
    rw [h x (by simp), ih fun a ha => h a (by simp [ha])]

theorem findSome?_append {α β : Type u} (f : α → Option β)
    (l1 l2 : List α) :
    (l1 ++ l2).findSome? f =
      match l1.findSome? f with
      | some b => some b
      | none => l2.findSome? f := by
  induction l1 with
  | nil => rfl
  | cons x xs ih =>
    simp only [List.cons_append, List.findSome?]
    cases f x with
    | none => exact ih
    | some b => rfl

theorem findSome?_map {α β γ : Type u} (f : α → β) (g : β → Option γ)
    (l : List α) : (l.map f).findSome? g = l.findSome? (fun a => g (f a)) := by
  induction l with
  | nil => rfl
  | cons x xs ih =>
    simp only [List.map_cons, List.findSome?]
    cases g (f x) with
    | none => exact ih
    | some c => rfl

theorem down_scan_index (n i : Nat) (h : i < n) :
    (((-1 : Int) + ((i : Int) + 1) * 1) % (n : Int)).toNat = i := by
  have h1 : ((-1 : Int) + ((i : Int) + 1) * 1) = (i : Int) := by ring
  rw [h1, Int.emod_eq_of_lt (by omega) (by omega)]
  omega

theorem up_scan_index (n i : Nat) (h : i < n) :
    (((0 : Int) + ((i : Int) + 1) * (-1)) % (n : Int)).toNat = n - 1 - i := by
  have h1 : ((0 : Int) + ((i : Int) + 1) * (-1)) =
      ((n : Int) - ((i : Int) + 1)) + (n : Int) * (-1) := by ring
  rw [h1, Int.add_mul_emod_self_left, Int.emod_eq_of_lt (by omega) (by omega)]
  omega

theorem nextSelectableRow_down (c : Nat → Bool) (n : Nat) :
    nextSelectableRow c n NavDirection.down (-1) = firstSelIdx c n := by
  unfold nextSelectableRow
  cases n with
  | zero => rfl
  | succ m =>
    simp only [Nat.succ_ne_zero, beq_iff_eq, if_false]
    rw [findSome?_congr (List.range (m + 1))
      (g := fun i => if c i then some i else none)
      (by
        intro i hi
        have hi' : i < m + 1 := List.mem_range.mp hi
        simp only [down_scan_index (m + 1) i hi'])]
    generalize m + 1 = k
    induction k with
    | zero => rfl
    | succ j ihj =>
      rw [List.range_succ, findSome?_append, ihj]
      cases hfs : firstSelIdx c j with
      | some r => simp [firstSelIdx, hfs]
      | none =>
        simp only [firstSelIdx, hfs, List.findSome?]
        cases hc : c j <;> rfl

theorem nextSelectableRow_up (c : Nat → Bool) (n : Nat) :
    nextSelectableRow c n NavDirection.up 0 = lastSelIdx c n := by
  unfold nextSelectableRow
  cases n with
  | zero => rfl
  | succ m =>
    simp only [Nat.succ_ne_zero, beq_iff_eq, if_false]
    rw [findSome?_congr (List.range (m + 1))
      (g := fun i => if c (m + 1 - 1 - i) then some (m + 1 - 1 - i) else none)
      (by
        intro i hi
        have hi' : i < m + 1 := List.mem_range.mp hi
        simp only [up_scan_index (m + 1) i hi'])]
    generalize m + 1 = k
    induction k with
    | zero => rfl
    | succ j ihj =>
      rw [List.range_succ_eq_map]
      simp only [List.findSome?, Nat.succ_sub_one, Nat.sub_zero]
      cases hc : c j with
      | true => simp [lastSelIdx, hc]
      | false =>
        simp only [Bool.false_eq_true, if_false]
        rw [findSome?_map]
        have hcongr : ∀ a ∈ List.range j,
            (if c (j - Nat.succ a) = true then some (j - Nat.succ a)
              else none) =
            (if c (j - 1 - a) = true then some (j - 1 - a) else none) := by
          intro a _
          have he : j - Nat.succ a = j - 1 - a := by omega
          rw [he]
        rw [findSome?_congr (List.range j) hcongr, ihj]
        simp [lastSelIdx, hc]

theorem firstSelIdx_none {c : Nat → Bool} {n : Nat}
    (h : firstSelIdx c n = none) : ∀ m, m < n → c m = false := by
  induction n with
  | zero => omega
  | succ k ih =>
    intro m hm
    unfold firstSelIdx at h
    cases hfs : firstSelIdx c k with
    | some r => simp [hfs] at h
    | none =>
      rw [hfs] at h
      by_cases hck : c k = true
      · simp [hck] at h
      · rcases Nat.lt_succ_iff_lt_or_eq.mp hm with hm' | hm'
        · exact ih hfs m hm'
        · subst hm'
          simpa using hck

theorem firstSelIdx_spec {c : Nat → Bool} {n r : Nat}
    (h : firstSelIdx c n = some r) :
    c r = true ∧ r < n ∧ ∀ m, m < r → c m = false := by
  induction n with
  | zero => simp [firstSelIdx] at h
  | succ k ih =>
    unfold firstSelIdx at h
    cases hfs : firstSelIdx c k with
    | some r0 =>
      rw [hfs] at h
      injection h with h'
      subst h'
      obtain ⟨h1, h2, h3⟩ := ih hfs
      exact ⟨h1, Nat.lt_succ_of_lt h2, h3⟩
    | none =>
      rw [hfs] at h
      by_cases hck : c k = true
      · rw [if_pos hck] at h
        injection h with h'
        subst h'
        exact ⟨hck, Nat.lt_succ_self _, firstSelIdx_none hfs⟩
      · simp [hck] at h

theorem firstSelIdx_isSome {c : Nat → Bool} {n i : Nat}
    (hi : i < n) (hc : c i = true) : firstSelIdx c n ≠ none := by
  intro h
  have := firstSelIdx_none h i hi
  simp [hc] at this

theorem lastSelIdx_spec {c : Nat → Bool} {n r : Nat}
    (h : lastSelIdx c n = some r) :
    c r = true ∧ r < n ∧ ∀ m, r < m → m < n → c m = false := by
  induction n with
  | zero => simp [lastSelIdx] at h
  | succ k ih =>
    unfold lastSelIdx at h
    by_cases hck : c k = true
    · rw [if_pos hck] at h
      injection h with h'
      subst h'
      exact ⟨hck, Nat.lt_succ_self _, fun m hm1 hm2 => by omega⟩
    · rw [if_neg hck] at h
      obtain ⟨h1, h2, h3⟩ := ih h
      refine ⟨h1, Nat.lt_succ_of_lt h2, fun m hm1 hm2 => ?_⟩
      rcases Nat.lt_succ_iff_lt_or_eq.mp hm2 with hm' | hm'
      · exact h3 m hm1 hm'
      · subst hm'
        simpa using hck

theorem lastSelIdx_isSome {c : Nat → Bool} {n i : Nat}
    (hi : i < n) (hc : c i = true) : lastSelIdx c n ≠ none := by
  induction n with
  | zero => omega
  | succ k ih =>
    unfold lastSelIdx
    by_cases hck : c k = true
    · simp [hck]
    · rw [if_neg hck]
      rcases Nat.lt_succ_iff_lt_or_eq.mp hi with hi' | hi'
      · exact ih hi'
      · subst hi'
        simp [hc] at hck

/-- Projection of a row to its item, when it is an item row. -/
def rowItem : IFilterListRow → Option IFilterListItem
  | IFilterListRow.item i => some i
  | IFilterListRow.group _ => none

theorem flattenRows_cons_empty {hasHeader : Bool} {filter : List Char}
    {g : IFilterListGroup} (gs : List IFilterListGroup)
    (h : g.items.filter (itemMatches filter) = []) :
    flattenRows hasHeader filter (g :: gs) = flattenRows hasHeader filter gs := by
  simp [flattenRows, h]

theorem flattenRows_cons_ne {hasHeader : Bool} {filter : List Char}
    {g : IFilterListGroup} (gs : List IFilterListGroup)
    (h : g.items.filter (itemMatches filter) ≠ []) :
    flattenRows hasHeader filter (g :: gs) =
      (if hasHeader then [IFilterListRow.group g.identifier] else []) ++
        (g.items.filter (itemMatches filter)).map IFilterListRow.item ++
        flattenRows hasHeader filter gs := by
  have hlen : ((g.items.filter (itemMatches filter)).length == 0) = false := by
    cases hfl : g.items.filter (itemMatches filter) with
    | nil => exact absurd hfl h
    | cons a as => simp
  simp [flattenRows, hlen]

theorem flattenRows_mem_item {hasHeader : Bool} {filter : List Char}
    {gs : List IFilterListGroup} {i : IFilterListItem} :
    IFilterListRow.item i ∈ flattenRows hasHeader filter gs ↔
      ∃ g ∈ gs, i ∈ g.items ∧ itemMatches filter i = true := by
  induction gs with
  | nil => simp [flattenRows]
  | cons g gs ih =>
    by_cases hfl : g.items.filter (itemMatches filter) = []
    · rw [flattenRows_cons_empty gs hfl, ih]
      constructor
      · rintro ⟨g', hg', hi, hm⟩
        exact ⟨g', by simp [hg'], hi, hm⟩
      · rintro ⟨g', hg', hi, hm⟩
        rcases List.mem_cons.mp hg' with hg' | hg'
        · subst hg'
          have : i ∈ g'.items.filter (itemMatches filter) :=
            List.mem_filter.mpr ⟨hi, hm⟩
          rw [hfl] at this
          simp at this
        · exact ⟨g', hg', hi, hm⟩
    · rw [flattenRows_cons_ne gs hfl]
      simp only [List.append_assoc, List.mem_append, ih]
      constructor
      · rintro (hin | hin | ⟨g', hg', hi, hm⟩)
        · by_cases hh : hasHeader <;> simp [hh] at hin
        · obtain ⟨i', hi', hii⟩ := List.mem_map.mp hin
          injection hii with hii
          subst hii
          obtain ⟨hmem, hmatch⟩ := List.mem_filter.mp hi'
          exact ⟨g, by simp, hmem, hmatch⟩
        · exact ⟨g', by simp [hg'], hi, hm⟩
      · rintro ⟨g', hg', hi, hm⟩
        rcases List.mem_cons.mp hg' with hg' | hg'
        · subst hg'
          exact Or.inr (Or.inl (List.mem_map.mpr
            ⟨i, List.mem_filter.mpr ⟨hi, hm⟩, rfl⟩))
        · exact Or.inr (Or.inr ⟨g', hg', hi, hm⟩)

theorem flattenRows_mem_group {hasHeader : Bool} {filter : List Char}
    {gs : List IFilterListGroup} {gid : String} :
    IFilterListRow.group gid ∈ flattenRows hasHeader filter gs ↔
      hasHeader = true ∧ ∃ g ∈ gs, g.identifier = gid ∧
        g.items.filter (itemMatches filter) ≠ [] := by
  induction gs with
  | nil => simp [flattenRows]
  | cons g gs ih =>
    by_cases hfl : g.items.filter (itemMatches filter) = []
    · rw [flattenRows_cons_empty gs hfl, ih]
      constructor
      · rintro ⟨hh, g', hg', hgid, hne⟩
        exact ⟨hh, g', by simp [hg'], hgid, hne⟩
      · rintro ⟨hh, g', hg', hgid, hne⟩
        rcases List.mem_cons.mp hg' with hg' | hg'
        · subst hg'
          exact absurd hfl hne
        · exact ⟨hh, g', hg', hgid, hne⟩
    · rw [flattenRows_cons_ne gs hfl]
      simp only [List.append_assoc, List.mem_append, ih]
      constructor
      · rintro (hin | hin | ⟨hh, g', hg', hgid, hne⟩)
        · by_cases hh : hasHeader
          · simp only [hh, if_true, List.mem_singleton] at hin
            injection hin with hin
            exact ⟨hh, g, by simp, hin.symm, hfl⟩
          · simp [hh] at hin
        · obtain ⟨i', _, hii⟩ := List.mem_map.mp hin
          cases hii
        · exact ⟨hh, g', by simp [hg'], hgid, hne⟩
      · rintro ⟨hh, g', hg', hgid, hne⟩
        rcases List.mem_cons.mp hg' with hg' | hg'
        · subst hg'
          left
          simp [hh, hgid]
        · exact Or.inr (Or.inr ⟨hh, g', hg', hgid, hne⟩)

theorem filterMap_rowItem_map (l : List IFilterListItem) :
    (l.map IFilterListRow.item).filterMap rowItem = l := by
  induction l with
  | nil => rfl
  | cons x xs ih => simp [rowItem, ih]

theorem flattenRows_items_proj (hasHeader : Bool) (filter : List Char)
    (gs : List IFilterListGroup) :
    (flattenRows hasHeader filter gs).filterMap rowItem =
      gs.flatMap (fun g => g.items.filter (itemMatches filter)) := by
  induction gs with
  | nil => rfl
  | cons g gs ih =>
    by_cases hfl : g.items.filter (itemMatches filter) = []
    · rw [flattenRows_cons_empty gs hfl, ih, List.flatMap_cons, hfl,
        List.nil_append]
    · rw [flattenRows_cons_ne gs hfl, List.flatMap_cons]
      simp only [List.append_assoc, List.filterMap_append, ih,
        filterMap_rowItem_map]
      by_cases hh : hasHeader <;> simp [hh, rowItem]

theorem flattenRows_all_item (filter : List Char)
    (gs : List IFilterListGroup) :
    ∀ r ∈ flattenRows false filter gs, isItemRow r = true := by
  induction gs with
  | nil => simp [flattenRows]
  | cons g gs ih =>
    intro r hr
    by_cases hfl : g.items.filter (itemMatches filter) = []
    · rw [flattenRows_cons_empty gs hfl] at hr
      exact ih r hr
    · rw [flattenRows_cons_ne gs hfl] at hr
      simp only [if_neg Bool.false_ne_true, List.nil_append,
        List.mem_append] at hr
      rcases hr with hr | hr
      · obtain ⟨i', _, hii⟩ := List.mem_map.mp hr
        subst hii
        rfl
      · exact ih r hr

theorem flattenRows_exists_item {hasHeader : Bool} {filter : List Char}
    {gs : List IFilterListGroup}
    (h : flattenRows hasHeader filter gs ≠ []) :
    ∃ i, IFilterListRow.item i ∈ flattenRows hasHeader filter gs := by
  induction gs with
  | nil => exact absurd rfl h
  | cons g gs ih =>
    by_cases hfl : g.items.filter (itemMatches filter) = []
    · rw [flattenRows_cons_empty gs hfl] at h ⊢
      exact ih h
    · cases hfq : g.items.filter (itemMatches filter) with
      | nil => exact absurd hfq hfl
      | cons a as =>
        refine ⟨a, ?_⟩
        rw [flattenRows_cons_ne gs hfl]
        simp only [List.append_assoc, List.mem_append]
        right
        left
        rw [hfq]
        simp

theorem flattenRows_flatMap (hasHeader : Bool) (filter : List Char)
    (gs : List IFilterListGroup) :
    flattenRows hasHeader filter gs = gs.flatMap (fun g =>
      if (g.items.filter (itemMatches filter)).length == 0 then []
      else
        (if hasHeader then [IFilterListRow.group g.identifier] else []) ++
          (g.items.filter (itemMatches filter)).map IFilterListRow.item) := by
  induction gs with
  | nil => rfl
  | cons g gs ih => rw [List.flatMap_cons, flattenRows, ih]

theorem getItemFromRowIndex_out {rows : List IFilterListRow} {idx : Int}
    (h : idx < 0 ∨ (rows.length : Int) ≤ idx) :
    getItemFromRowIndex rows idx = none := by
  unfold getItemFromRowIndex
  rw [if_neg]
  omega

theorem getItemFromRowIndex_item {rows : List IFilterListRow} {r : Nat}
    {it : IFilterListItem}
    (hget : rows.get? r = some (IFilterListRow.item it)) :
    getItemFromRowIndex rows (r : Int) = some it := by
  have hr : r < rows.length := by
    by_contra h'
    rw [List.get?_eq_none.mpr (by omega)] at hget
    cases hget
  unfold getItemFromRowIndex
  rw [if_pos (by constructor <;> omega)]
  simp only [Int.toNat_natCast, hget]

theorem getItemFromRowIndex_group {rows : List IFilterListRow} {r : Nat}
    {gid : String} (hget : rows.get? r = some (IFilterListRow.group gid)) :
    getItemFromRowIndex rows (r : Int) = none := by
  have hr : r < rows.length := by
    by_contra h'
    rw [List.get?_eq_none.mpr (by omega)] at hget
    cases hget
  unfold getItemFromRowIndex
  rw [if_pos (by constructor <;> omega)]
  simp only [Int.toNat_natCast, hget]

theorem getItemIdFromRowIndex_eq_none_iff (rows : List IFilterListRow)
    (idx : Int) :
    getItemIdFromRowIndex rows idx = none ↔
      idx < 0 ∨ (rows.length : Int) ≤ idx ∨
        ∃ gid, jsIndex rows idx = some (IFilterListRow.group gid) := by
  unfold getItemIdFromRowIndex getItemFromRowIndex jsIndex
  by_cases hin : 0 ≤ idx ∧ idx < (rows.length : Int)
  · rw [if_pos hin, if_pos hin.1]
    cases hget : rows.get? idx.toNat with
    | none => exact absurd (List.get?_eq_none.mp hget) (by omega)
    | some row =>
      cases row with
      | item it =>
        simp
        omega
      | group gid => simp
  · rw [if_neg hin]
    by_cases h0 : 0 ≤ idx
    · rw [if_pos h0]
      have hlen : (rows.length : Int) ≤ idx := by omega
      simp [hlen]
    · rw [if_neg h0]
      have hneg : idx < 0 := by omega
      simp [hneg]

theorem startsWithCL_iff {sub s : List Char} :
    startsWithCL s sub = true ↔ ∃ t, s = sub ++ t := by
  induction sub generalizing s with
  | nil =>
    cases s with
    | nil => simp [startsWithCL]
    | cons c cs => simp [startsWithCL]
  | cons d ds ih =>
    cases s with
    | nil => simp [startsWithCL]
    | cons c cs =>
      simp only [startsWithCL, Bool.and_eq_true, beq_iff_eq, ih,
        List.cons_append, List.cons.injEq]
      constructor
      · rintro ⟨rfl, t, rfl⟩
        exact ⟨t, rfl, rfl⟩
      · rintro ⟨t, h1, h2⟩
        exact ⟨h1, t, h2⟩

theorem jsIncludes_iff {s sub : List Char} :
    jsIncludes s sub = true ↔ ∃ l1 l2, s = l1 ++ sub ++ l2 := by
  induction s with
  | nil =>
    simp only [jsIncludes, List.isEmpty_iff]
    constructor
    · rintro rfl
      exact ⟨[], [], rfl⟩
    · rintro ⟨l1, l2, h⟩
      rcases List.append_eq_nil.mp h.symm with ⟨h1, h2⟩
      exact (List.append_eq_nil.mp h1).2
  | cons c cs ih =>
    simp only [jsIncludes, Bool.or_eq_true, startsWithCL_iff, ih]
    constructor
    · rintro (⟨t, ht⟩ | ⟨l1, l2, heq⟩)
      · exact ⟨[], t, by simp [ht]⟩
      · exact ⟨c :: l1, l2, by simp [heq]⟩
    · rintro ⟨l1, l2, heq⟩
      cases l1 with
      | nil => exact Or.inl ⟨l2, by simpa using heq⟩
      | cons a l1' =>
        simp only [List.cons_append, List.cons.injEq] at heq
        exact Or.inr ⟨l1', l2, heq.2⟩

/-- Does a row carry the id of the (possibly absent) selected item?  This is
the search criterion of the claim: an item row whose item id equals
`selectedItemId`, with a `null` id matching no row. -/
def selMatch : Option IFilterListItem → IFilterListRow → Bool
  | some sel, IFilterListRow.item it => it.id == sel.id
  | some _, IFilterListRow.group _ => false
  | none, _ => false

theorem selMatch_none (r : IFilterListRow) : selMatch none r = false := by
  cases r <;> rfl

theorem createStateUpdate_rows (props : IFilterListProps) :
    (createStateUpdate props).rows =
      flattenRows props.renderGroupHeader
        (jsToLower (props.filterText.getD [])) props.groups := rfl

theorem createStateUpdate_selectedRow_def (props : IFilterListProps) :
    (createStateUpdate props).selectedRow =
      if (match props.selectedItem with
          | some sel => jsFindIndex (selMatch (some sel)) (createStateUpdate props).rows
          | none => (-1 : Int) : Int) < (0 : Int) ∧
          (jsToLower (props.filterText.getD [])).length ≠ 0 then
        jsFindIndex isItemRow (createStateUpdate props).rows
      else
        match props.selectedItem with
        | some sel => jsFindIndex (selMatch (some sel)) (createStateUpdate props).rows
        | none => (-1 : Int) := by
  have hfun : ∀ sel : IFilterListItem,
      (fun i => match i with
        | IFilterListRow.item it => it.id == sel.id
        | IFilterListRow.group _ => false) = selMatch (some sel) := by
    intro sel
    funext r
    cases r <;> rfl
  cases hsel : props.selectedItem with
  | none => simp [createStateUpdate, hsel, createStateUpdate_rows]
  | some sel => simp [createStateUpdate, hsel, hfun, createStateUpdate_rows]

theorem jsFindIndex_lt_zero {α : Type u} {p : α → Bool} {l : List α}
    (h : jsFindIndex p l < 0) : jsFindIndex p l = -1 := by
  induction l with
  | nil => rfl
  | cons x xs ih =>
    by_cases hx : p x = true
    · simp [jsFindIndex, hx] at h
    · have hx' : p x = false := by simpa using hx
      simp only [jsFindIndex, hx', Bool.false_eq_true, if_false] at h ⊢
      by_cases hr : jsFindIndex p xs < 0
      · simp [hr]
      · simp [hr] at h ⊢
        omega

theorem jsFindIndex_item_cases {p : IFilterListRow → Bool}
    {rows : List IFilterListRow}
    (hp : ∀ r, p r = true → ∃ it, r = IFilterListRow.item it) :
    jsFindIndex p rows = -1 ∨
      ∃ k : Nat, jsFindIndex p rows = (k : Int) ∧ k < rows.length ∧
        ∃ it, rows.get? k = some (IFilterListRow.item it) := by
  rcases lt_or_le (jsFindIndex p rows) 0 with h | h
  · exact Or.inl (jsFindIndex_lt_zero h)
  · right
    obtain ⟨k, hk, r, hget, hpr⟩ := jsFindIndex_nonneg_spec h
    obtain ⟨it, hit⟩ := hp r hpr
    subst hit
    have hlt : k < rows.length := by
      by_contra h'
      rw [List.get?_eq_none.mpr (by omega)] at hget
      cases hget
    exact ⟨k, hk, hlt, it, hget⟩

/-- C1: for every groups list, filter text, and selected item id, the
selected row computed by `createStateUpdate` is the index of the first
item row whose item id equals the selected id when such a row exists;
otherwise, when the filter text is non-empty, the index of the first item
row (`-1` when there is none); and `-1` when the filter text is empty. -/
theorem c1_selectedRow_resolution (props : IFilterListProps) :
    (∀ n r, (createStateUpdate props).rows.get? n = some r →
      selMatch props.selectedItem r = true →
      (∀ m r', m < n → (createStateUpdate props).rows.get? m = some r' →
        selMatch props.selectedItem r' = false) →
      (createStateUpdate props).selectedRow = (n : Int))
    ∧ ((∀ r ∈ (createStateUpdate props).rows,
          selMatch props.selectedItem r = false) →
        props.filterText.getD [] ≠ [] →
        (∀ n r, (createStateUpdate props).rows.get? n = some r →
          isItemRow r = true →
          (∀ m r', m < n → (createStateUpdate props).rows.get? m = some r' →
            isItemRow r' = false) →
          (createStateUpdate props).selectedRow = (n : Int))
        ∧ ((∀ r ∈ (createStateUpdate props).rows, isItemRow r = false) →
            (createStateUpdate props).selectedRow = -1))
    ∧ ((∀ r ∈ (createStateUpdate props).rows,
          selMatch props.selectedItem r = false) →
        props.filterText.getD [] = [] →
        (createStateUpdate props).selectedRow = -1) := by
  refine ⟨?_, ?_, ?_⟩
  · intro n r hget hmatch hmin
    cases hsel : props.selectedItem with
    | none =>
      rw [hsel] at hmatch
      rw [selMatch_none] at hmatch
      cases hmatch
    | some sel =>
      rw [hsel] at hmatch hmin
      have hfi : jsFindIndex (selMatch (some sel))
          (createStateUpdate props).rows = (n : Int) :=
        jsFindIndex_eq_of_first hget hmatch hmin
      rw [createStateUpdate_selectedRow_def, hsel]
      simp only [hfi]
      rw [if_neg (by rintro ⟨h1, _⟩; omega)]
  · intro hall hft
    have hlen : (jsToLower (props.filterText.getD [])).length ≠ 0 := by
      rw [jsToLower_length]
      intro hl
      exact hft (List.length_eq_zero.mp hl)
    have hneg : (match props.selectedItem with
        | some sel => jsFindIndex (selMatch (some sel)) (createStateUpdate props).rows
        | none => (-1 : Int)) = -1 := by
      cases hsel : props.selectedItem with
      | none => rfl
      | some sel =>
        rw [hsel] at hall
        exact jsFindIndex_eq_neg_one hall
    constructor
    · intro n r hget hitem hmin
      rw [createStateUpdate_selectedRow_def, if_pos (by rw [hneg]; exact ⟨by omega, hlen⟩)]
      exact jsFindIndex_eq_of_first hget hitem hmin
    · intro hnone
      rw [createStateUpdate_selectedRow_def, if_pos (by rw [hneg]; exact ⟨by omega, hlen⟩)]
      exact jsFindIndex_eq_neg_one hnone
  · intro hall hft
    have hlen : (jsToLower (props.filterText.getD [])).length = 0 := by
      rw [jsToLower_length, hft]
      rfl
    have hneg : (match props.selectedItem with
        | some sel => jsFindIndex (selMatch (some sel)) (createStateUpdate props).rows
        | none => (-1 : Int)) = -1 := by
      cases hsel : props.selectedItem with
      | none => rfl
      | some sel =>
        rw [hsel] at hall
        exact jsFindIndex_eq_neg_one hall
    rw [createStateUpdate_selectedRow_def, if_neg (by simp [hlen]), hneg]

/-- Example item `{id: "a"}`. -/
def itemA : IFilterListItem := ⟨"a".toList, "a"⟩

/-- Example item `{id: "b"}`. -/
def itemB : IFilterListItem := ⟨"b".toList, "b"⟩

/-- Example item `{id: "c"}`. -/
def itemC : IFilterListItem := ⟨"c".toList, "c"⟩

/-- Example group holding items a, b, c. -/
def groupABC : IFilterListGroup := ⟨"g", [itemA, itemB, itemC]⟩

/-- Example props: one group of a, b, c, item b selected, empty filter. -/
def propsABC : IFilterListProps :=
  ⟨[groupABC], some itemB, some [], false, false, true, true⟩

/-- C7: the selected row produced by `createStateUpdate` is `-1` or a
valid index of an item row; it never points at a group header row or past
the end of the rows sequence. -/
theorem c7_selectedRow_invariant (props : IFilterListProps) :
    (createStateUpdate props).selectedRow = -1 ∨
      ∃ k : Nat, (createStateUpdate props).selectedRow = (k : Int) ∧
        k < (createStateUpdate props).rows.length ∧
        ∃ it, (createStateUpdate props).rows.get? k =
          some (IFilterListRow.item it) := by
  rw [createStateUpdate_selectedRow_def]
  by_cases hcond : (match props.selectedItem with
      | some sel => jsFindIndex (selMatch (some sel)) (createStateUpdate props).rows
      | none => (-1 : Int) : Int) < (0 : Int) ∧
      (jsToLower (props.filterText.getD [])).length ≠ 0
  · rw [if_pos hcond]
    exact jsFindIndex_item_cases (fun r hr => by
      cases r with
      | item it => exact ⟨it, rfl⟩
      | group gid => simp [isItemRow] at hr)
  · rw [if_neg hcond]
    cases hsel : props.selectedItem with
    | none => exact Or.inl rfl
    | some sel =>
      exact jsFindIndex_item_cases (fun r hr => by
        cases r with
        | item it => exact ⟨it, rfl⟩
        | group gid => simp [selMatch] at hr)

/-- C9: the derived-state computation is deterministic and idempotent:
structurally identical props yield structurally identical rows and an
identical selected row. -/
theorem c9_deterministic (p q : IFilterListProps) (h : p = q) :
    (createStateUpdate p).rows = (createStateUpdate q).rows ∧
      (createStateUpdate p).selectedRow = (createStateUpdate q).selectedRow := by
  subst h
  exact ⟨rfl, rfl⟩

/-- Witness for C9 at the example props. -/
theorem c9_deterministic_witness :
    (createStateUpdate propsABC).rows = (createStateUpdate propsABC).rows ∧
      (createStateUpdate propsABC).selectedRow =
        (createStateUpdate propsABC).selectedRow :=
  c9_deterministic propsABC propsABC rfl

/-- C2: flattening emits, for each group in caller order, nothing at all
when the group has no matching item; otherwise a group header row first
iff a group-header renderer is present, followed by one item row per
matching item in original relative order, groups appearing contiguously
in input order (the `flatMap` form); the item rows project back to the
concatenated filtered items, and a header row appears exactly for the
non-empty groups when the renderer is present. -/
theorem c2_flatten_shape (props : IFilterListProps) :
    ((createStateUpdate props).rows = props.groups.flatMap (fun g =>
      if (g.items.filter
           (itemMatches (jsToLower (props.filterText.getD [])))).length == 0
      then []
      else
        (if props.renderGroupHeader then [IFilterListRow.group g.identifier]
         else []) ++
          (g.items.filter
            (itemMatches (jsToLower (props.filterText.getD [])))).map
            IFilterListRow.item))
    ∧ ((createStateUpdate props).rows.filterMap rowItem =
        props.groups.flatMap (fun g =>
          g.items.filter (itemMatches (jsToLower (props.filterText.getD [])))))
    ∧ (∀ gid, IFilterListRow.group gid ∈ (createStateUpdate props).rows ↔
        props.renderGroupHeader = true ∧ ∃ g ∈ props.groups,
          g.identifier = gid ∧
          g.items.filter (itemMatches (jsToLower (props.filterText.getD []))) ≠ []) := by
  rw [createStateUpdate_rows]
  exact ⟨flattenRows_flatMap _ _ _, flattenRows_items_proj _ _ _,
    fun gid => flattenRows_mem_group⟩

/-- Example item with text `"Hello World"`. -/
def hwItem : IFilterListItem := ⟨"Hello World".toList, "hw"⟩

/-- Example props for the filtering examples: one group holding only
`hwItem`, no selection, and the given filter text. -/
def hwProps (ft : Option (List Char)) : IFilterListProps :=
  ⟨[⟨"g", [hwItem]⟩], none, ft, false, false, false, false⟩

/-- C6: an item is included in the flattened rows iff it occurs in some
input group and its lower-cased text contains the lower-cased filter text
(empty when absent) as a substring; `jsIncludes` is exactly substring
occurrence; in particular "Hello World" matches the filters "wor",
"HELLO" and "", but not "xyz". -/
theorem c6_filter_match (props : IFilterListProps) (i : IFilterListItem) :
    (IFilterListRow.item i ∈ (createStateUpdate props).rows ↔
      (∃ g ∈ props.groups, i ∈ g.items) ∧
        jsIncludes (jsToLower i.text)
          (jsToLower (props.filterText.getD [])) = true)
    ∧ (∀ s sub : List Char,
        jsIncludes s sub = true ↔ ∃ l1 l2, s = l1 ++ sub ++ l2)
    ∧ (IFilterListRow.item hwItem ∈
        (createStateUpdate (hwProps (some "wor".toList))).rows ∧
      IFilterListRow.item hwItem ∈
        (createStateUpdate (hwProps (some "HELLO".toList))).rows ∧
      IFilterListRow.item hwItem ∈
        (createStateUpdate (hwProps (some []))).rows ∧
      IFilterListRow.item hwItem ∉
        (createStateUpdate (hwProps (some "xyz".toList))).rows) := by
  refine ⟨?_, ?_, by decide, by decide, by decide, by decide⟩
  · rw [createStateUpdate_rows, flattenRows_mem_item]
    unfold itemMatches
    constructor
    · rintro ⟨g, hg, hi, hm⟩
      exact ⟨⟨g, hg, hi⟩, hm⟩
    · rintro ⟨⟨g, hg, hi⟩, hm⟩
      exact ⟨g, hg, hi, hm⟩
  · intro s sub
    exact jsIncludes_iff

/-- C10: when no group-header renderer is supplied, every flattened row is
an item row, and with the widget enabled every in-range index is
selectable. -/
theorem c10_no_header_rows (props : IFilterListProps)
    (h : props.renderGroupHeader = false) :
    (∀ r ∈ (createStateUpdate props).rows, isItemRow r = true)
    ∧ (props.disabled = false →
        ∀ k : Nat, k < (createStateUpdate props).rows.length →
          canSelectRowB false (createStateUpdate props).rows k = true ∧
          canSelectRow false (createStateUpdate props).rows (k : Int) =
            Except.ok true) := by
  have hall : ∀ r ∈ (createStateUpdate props).rows, isItemRow r = true := by
    rw [createStateUpdate_rows, h]
    exact flattenRows_all_item _ _
  refine ⟨hall, fun _ k hk => ?_⟩
  cases hget : (createStateUpdate props).rows.get? k with
  | none => exact absurd (List.get?_eq_none.mp hget) (by omega)
  | some r =>
    have hmem : r ∈ (createStateUpdate props).rows := List.get?_mem hget
    have hitem := hall r hmem
    cases r with
    | group gid => simp [isItemRow] at hitem
    | item it =>
      have hb : canSelectRowB false (createStateUpdate props).rows k = true := by
        unfold canSelectRowB
        rw [hget]
        rfl
      exact ⟨hb, by rw [canSelectRow_in_range _ _ _ hk, hb]⟩

/-- Witness for C10: with no group-header renderer and items a, b, c, every
row is an item row and row 0 is selectable. -/
theorem c10_no_header_rows_witness :
    canSelectRow false (createStateUpdate propsABC).rows (0 : Int) =
      Except.ok true :=
  ((c10_no_header_rows propsABC rfl).2 rfl 0 (by decide)).2

/-- Witness for C1: with items a, b, c, selected item b and empty filter,
the selected row resolves to index 1, the row holding b. -/
theorem c1_selectedRow_resolution_witness :
    (createStateUpdate propsABC).selectedRow = (1 : Int) := by
  have hrows : (createStateUpdate propsABC).rows =
      [IFilterListRow.item itemA, IFilterListRow.item itemB,
        IFilterListRow.item itemC] := by decide
  refine (c1_selectedRow_resolution propsABC).1 1 (IFilterListRow.item itemB)
    (by rw [hrows]; rfl) (by decide) ?_
  intro m r' hm hget
  have hm0 : m = 0 := by omega
  subst hm0
  rw [hrows] at hget
  simp only [List.get?_cons_zero, Option.some.injEq] at hget
  subst hget
  decide

/-- C3: after a derived-state recomputation, the filter-sourced
selection-changed notification fires iff the item id at the new selected
row differs from the one at the previous selected row and also differs
from the `selectedItem` prop's id; its payload is the newly selected item
(or null) with source `'filter'` carrying the filter text or the empty
string; and the id at a row index is null exactly for a negative index, an
index at or past the end, or a group-header row. -/
theorem c3_reconciliation (sel : Option IFilterListItem)
    (ft : Option (List Char)) (prev cur : IFilterListState) :
    (componentDidUpdate true sel ft prev cur = none ↔
      (getItemIdFromRowIndex prev.rows prev.selectedRow =
          getItemIdFromRowIndex cur.rows cur.selectedRow ∨
        (match sel with
         | some it => some it.id
         | none => none) =
          getItemIdFromRowIndex cur.rows cur.selectedRow))
    ∧ (∀ payload, componentDidUpdate true sel ft prev cur = some payload →
        payload = (getItemFromRowIndex cur.rows cur.selectedRow,
          SelectionSource.filter (ft.getD [])))
    ∧ (∀ rows idx, getItemIdFromRowIndex rows idx = none ↔
        idx < 0 ∨ (rows.length : Int) ≤ idx ∨
          ∃ gid, jsIndex rows idx = some (IFilterListRow.group gid)) := by
  have hcdu : componentDidUpdate true sel ft prev cur =
      (if getItemIdFromRowIndex prev.rows prev.selectedRow ≠
          getItemIdFromRowIndex cur.rows cur.selectedRow then
        (if (match sel with
             | some it => some it.id
             | none => none) ≠
            getItemIdFromRowIndex cur.rows cur.selectedRow then
          some (getItemFromRowIndex cur.rows cur.selectedRow,
            SelectionSource.filter (ft.getD []))
        else none)
      else none) := by
    simp [componentDidUpdate]
  refine ⟨?_, ?_, fun rows idx => getItemIdFromRowIndex_eq_none_iff rows idx⟩
  · rw [hcdu]
    by_cases h1 : getItemIdFromRowIndex prev.rows prev.selectedRow =
        getItemIdFromRowIndex cur.rows cur.selectedRow
    · simp [h1]
    · by_cases h2 : (match sel with
          | some it => some it.id
          | none => none) =
          getItemIdFromRowIndex cur.rows cur.selectedRow
      · simp [h1, h2]
      · simp [h1, h2]
  · intro payload hp
    rw [hcdu] at hp
    rcases sel with _ | it
    · by_cases h1 : getItemIdFromRowIndex prev.rows prev.selectedRow =
          getItemIdFromRowIndex cur.rows cur.selectedRow
      · simp [h1] at hp
      · by_cases h2 : (none : Option String) =
            getItemIdFromRowIndex cur.rows cur.selectedRow
        · simp [h1, h2] at hp
        · simp [h1, h2] at hp
          exact hp.symm
    · by_cases h1 : getItemIdFromRowIndex prev.rows prev.selectedRow =
          getItemIdFromRowIndex cur.rows cur.selectedRow
      · simp [h1] at hp
      · by_cases h2 : (some it.id : Option String) =
            getItemIdFromRowIndex cur.rows cur.selectedRow
        · simp [h1, h2] at hp
        · simp [h1, h2] at hp
          exact hp.symm

/-- Example previous state: no rows, no selection. -/
def stateEmpty : IFilterListState := ⟨[], -1⟩

/-- Example new state: one item row, selected. -/
def stateA : IFilterListState := ⟨[IFilterListRow.item itemA], 0⟩

/-- Witness for C3: with no previous selection, a newly selected item and
no prop selection, the notification fires carrying the item and the empty
filter text. -/
theorem c3_reconciliation_witness :
    componentDidUpdate true none none stateEmpty stateA =
      some (some itemA, SelectionSource.filter []) := by
  rcases hc : componentDidUpdate true none none stateEmpty stateA with _ | payload
  · have h := (c3_reconciliation none none stateEmpty stateA).1.mp hc
    revert h
    decide
  · have h := (c3_reconciliation none none stateEmpty stateA).2.1 payload hc
    rw [h]
    rfl

/-- C8 counterexample: at the out-of-range index 0 of an empty rows list,
the selectability predicate, the row-click handler and the
selection-changed handler all read `rows[0].kind` and fault with a
`TypeError` instead of resolving to false / a silent no-op. -/
theorem c8_out_of_range_counterexample :
    canSelectRow false ([] : List IFilterListRow) 0 = Except.error () ∧
    onRowClick true ([] : List IFilterListRow) 0 = Except.error () ∧
    onSelectionChangedHandler true ([] : List IFilterListRow) 0 =
      Except.error () := by
  exact ⟨rfl, rfl, rfl⟩

/-- C8 (amended): the selected-item lookup (`getItemFromRowIndex` and
`getItemIdFromRowIndex`) resolves every out-of-range or stale index to
null and never faults; the selectability predicate, the row-click handler
and the selection-changed handler do not bounds-check: they only
short-circuit when disabled (to false) or when their callback is absent
(to a no-op), and otherwise fault with a `TypeError` on any index outside
`[0, rows.length)`. -/
theorem c8_index_safety (rows : List IFilterListRow) (idx : Int)
    (h : idx < 0 ∨ (rows.length : Int) ≤ idx) :
    getItemFromRowIndex rows idx = none ∧
    getItemIdFromRowIndex rows idx = none ∧
    canSelectRow true rows idx = Except.ok false ∧
    canSelectRow false rows idx = Except.error () ∧
    onRowClick false rows idx = Except.ok none ∧
    onRowClick true rows idx = Except.error () ∧
    onSelectionChangedHandler false rows idx = Except.ok (idx, none) ∧
    onSelectionChangedHandler true rows idx = Except.error () := by
  have hj : jsIndex rows idx = none := jsIndex_eq_none_of_out h
  have hg : getItemFromRowIndex rows idx = none := getItemFromRowIndex_out h
  refine ⟨hg, ?_, ?_, ?_, ?_, ?_, ?_, ?_⟩
  · unfold getItemIdFromRowIndex
    rw [hg]
  · rfl
  · simp [canSelectRow, hj]
  · rfl
  · simp [onRowClick, hj]
  · rfl
  · simp [onSelectionChangedHandler, hj]

/-- Witness for C8 (amended) at a stale index past a one-row list. -/
theorem c8_index_safety_witness :
    getItemIdFromRowIndex [IFilterListRow.item itemA] 5 = none ∧
    canSelectRow false [IFilterListRow.item itemA] 5 = Except.error () := by
  have h := c8_index_safety [IFilterListRow.item itemA] 5 (by decide)
  exact ⟨h.2.1, h.2.2.2.1⟩

theorem onKeyDown_arrowDown (props : IFilterListProps)
    (state : IFilterListState) (hlen : state.rows.length > 0) {r : Nat}
    (hfs : nextSelectableRow (canSelectRowB props.disabled state.rows)
      state.rows.length NavDirection.down (-1) = some r) :
    onKeyDown props state PressedKey.arrowDown false =
      Except.ok ⟨true, some r, true, none⟩ := by
  simp [onKeyDown, hlen, hfs]

theorem onKeyDown_arrowUp (props : IFilterListProps)
    (state : IFilterListState) (hlen : state.rows.length > 0) {r : Nat}
    (hfs : nextSelectableRow (canSelectRowB props.disabled state.rows)
      state.rows.length NavDirection.up 0 = some r) :
    onKeyDown props state PressedKey.arrowUp false =
      Except.ok ⟨true, some r, true, none⟩ := by
  simp [onKeyDown, hlen, hfs]

/-- C5: at the navigational boundaries, ArrowUp on the topmost selectable
row (and ArrowDown on the bottommost) cancels the event and moves focus to
the filter input without changing the selected row; conversely ArrowDown
in the filter input with rows present selects the first selectable row
(ArrowUp the last), focuses the list, and suppresses the input's default. -/
theorem c5_boundary_navigation :
    (∀ (disabled : Bool) (rows : List IFilterListRow) (r : Nat),
      nextSelectableRow (canSelectRowB disabled rows) rows.length
          NavDirection.down (-1) = some r →
      onRowKeyDown disabled rows r PressedKey.arrowUp = ⟨true, none, true⟩)
    ∧ (∀ (disabled : Bool) (rows : List IFilterListRow) (r : Nat),
      nextSelectableRow (canSelectRowB disabled rows) rows.length
          NavDirection.up 0 = some r →
      onRowKeyDown disabled rows r PressedKey.arrowDown = ⟨true, none, true⟩)
    ∧ (∀ props : IFilterListProps, props.disabled = false →
        (createStateUpdate props).rows ≠ [] →
        ∃ r, nextSelectableRow
            (canSelectRowB false (createStateUpdate props).rows)
            (createStateUpdate props).rows.length NavDirection.down (-1) =
              some r ∧
          onKeyDown props (createStateUpdate props) PressedKey.arrowDown false =
            Except.ok ⟨true, some r, true, none⟩ ∧
          canSelectRowB false (createStateUpdate props).rows r = true ∧
          (∀ m, m < r →
            canSelectRowB false (createStateUpdate props).rows m = false))
    ∧ (∀ props : IFilterListProps, props.disabled = false →
        (createStateUpdate props).rows ≠ [] →
        ∃ r, nextSelectableRow
            (canSelectRowB false (createStateUpdate props).rows)
            (createStateUpdate props).rows.length NavDirection.up 0 = some r ∧
          onKeyDown props (createStateUpdate props) PressedKey.arrowUp false =
            Except.ok ⟨true, some r, true, none⟩ ∧
          canSelectRowB false (createStateUpdate props).rows r = true ∧
          (∀ m, r < m → m < (createStateUpdate props).rows.length →
            canSelectRowB false (createStateUpdate props).rows m = false)) := by
  refine ⟨?_, ?_, ?_, ?_⟩
  · intro disabled rows r hfs
    simp [onRowKeyDown, hfs]
  · intro disabled rows r hfs
    simp [onRowKeyDown, hfs]
  · intro props hdis hne
    obtain ⟨i, hmem⟩ : ∃ i, IFilterListRow.item i ∈ (createStateUpdate props).rows := by
      rw [createStateUpdate_rows] at hne ⊢
      exact flattenRows_exists_item hne
    obtain ⟨n, hn⟩ := List.get?_of_mem hmem
    have hcn : canSelectRowB false (createStateUpdate props).rows n = true := by
      unfold canSelectRowB
      rw [hn]
      rfl
    have hnlt : n < (createStateUpdate props).rows.length := by
      by_contra h'
      rw [List.get?_eq_none.mpr (by omega)] at hn
      cases hn
    rw [nextSelectableRow_down]
    cases hfs : firstSelIdx (canSelectRowB false (createStateUpdate props).rows)
        (createStateUpdate props).rows.length with
    | none => exact absurd hfs (firstSelIdx_isSome hnlt hcn)
    | some r =>
      obtain ⟨hcr, hrlt, hmin⟩ := firstSelIdx_spec hfs
      refine ⟨r, rfl, ?_, hcr, fun m hm => hmin m hm⟩
      refine onKeyDown_arrowDown props (createStateUpdate props)
        (List.length_pos.mpr hne) ?_
      rw [hdis, nextSelectableRow_down, hfs]
  · intro props hdis hne
    obtain ⟨i, hmem⟩ : ∃ i, IFilterListRow.item i ∈ (createStateUpdate props).rows := by
      rw [createStateUpdate_rows] at hne ⊢
      exact flattenRows_exists_item hne
    obtain ⟨n, hn⟩ := List.get?_of_mem hmem
    have hcn : canSelectRowB false (createStateUpdate props).rows n = true := by
      unfold canSelectRowB
      rw [hn]
      rfl
    have hnlt : n < (createStateUpdate props).rows.length := by
      by_contra h'
      rw [List.get?_eq_none.mpr (by omega)] at hn
      cases hn
    rw [nextSelectableRow_up]
    cases hfs : lastSelIdx (canSelectRowB false (createStateUpdate props).rows)
        (createStateUpdate props).rows.length with
    | none => exact absurd hfs (lastSelIdx_isSome hnlt hcn)
    | some r =>
      obtain ⟨hcr, hrlt, hmax⟩ := lastSelIdx_spec hfs
      refine ⟨r, rfl, ?_, hcr, fun m hm1 hm2 => hmax m hm1 hm2⟩
      refine onKeyDown_arrowUp props (createStateUpdate props)
        (List.length_pos.mpr hne) ?_
      rw [hdis, nextSelectableRow_up, hfs]

/-- Witness for C5: with a single item row, ArrowUp on row 0 (the topmost
selectable row) cancels the event and focuses the filter input. -/
theorem c5_boundary_navigation_witness :
    onRowKeyDown false [IFilterListRow.item itemA] 0 PressedKey.arrowUp =
      ⟨true, none, true⟩ :=
  c5_boundary_navigation.1 false [IFilterListRow.item itemA] 0 (by decide)

/-- Example props for the Enter handling: one matching item, no selection,
a defined empty filter text `""`, no group headers, item-click callback
present. -/
def propsEnter : IFilterListProps :=
  ⟨[⟨"g", [itemA]⟩], none, some [], false, false, true, false⟩

/-- Example props for the Enter handling with a group-header renderer, so
that the first selectable row sits at the nonzero index 1: filter text
undefined, item-click callback present. -/
def propsEnterHdr : IFilterListProps :=
  ⟨[⟨"g", [itemA]⟩], none, none, true, false, true, false⟩

/-- C4 counterexample: with one row, a selectable first row at index 0 and
the defined empty filter text `""`, Enter suppresses the default and
delivers no item click, although the claim requires the click to fire for
an empty filter text whenever a first selectable row exists. -/
theorem c4_enter_counterexample :
    nextSelectableRow (canSelectRowB false (createStateUpdate propsEnter).rows)
        (createStateUpdate propsEnter).rows.length NavDirection.down (-1) =
      some 0 ∧
    onKeyDown propsEnter (createStateUpdate propsEnter) PressedKey.enter false =
      Except.ok ⟨true, none, false, none⟩ := by
  exact ⟨by decide, rfl⟩

/-- C4 (amended): Enter in the filter input: with no rows, default is
suppressed and nothing happens; when the filter text is defined —
including as the empty string — and contains no non-whitespace character,
default is suppressed and no item-click occurs; otherwise (filter text
undefined, or containing a non-whitespace character) the first selectable
row scanning downward from above the top is determined and the item-click
callback is invoked on it exactly when it exists at a nonzero index — a
first selectable row at index 0, like a missing one, produces no click —
and default is not suppressed on this path. -/
theorem c4_enter_behavior (props : IFilterListProps)
    (state : IFilterListState) :
    (state.rows.length = 0 →
      onKeyDown props state PressedKey.enter false =
        Except.ok ⟨true, none, false, none⟩)
    ∧ (∀ t, state.rows.length ≠ 0 → props.filterText = some t →
        hasNonSpace t = false →
        onKeyDown props state PressedKey.enter false =
          Except.ok ⟨true, none, false, none⟩)
    ∧ (state.rows.length ≠ 0 →
        (props.filterText = none ∨
          (∃ t, props.filterText = some t ∧ hasNonSpace t = true)) →
        ((nextSelectableRow (canSelectRowB props.disabled state.rows)
            state.rows.length NavDirection.down (-1) = none ∨
          nextSelectableRow (canSelectRowB props.disabled state.rows)
            state.rows.length NavDirection.down (-1) = some 0) →
          onKeyDown props state PressedKey.enter false =
            Except.ok ⟨false, none, false, none⟩)
        ∧ (∀ r it, nextSelectableRow (canSelectRowB props.disabled state.rows)
              state.rows.length NavDirection.down (-1) = some r → r ≠ 0 →
            state.rows.get? r = some (IFilterListRow.item it) →
            onKeyDown props state PressedKey.enter false =
              Except.ok ⟨false, none, false,
                if props.onItemClick then some it else none⟩)) := by
  refine ⟨?_, ?_, ?_⟩
  · intro hlen
    simp [onKeyDown, hlen]
  · intro t hlen hft hns
    simp [onKeyDown, Nat.pos_of_ne_zero hlen, hft, hns]
  · intro hlen hproceed
    have hws : (match props.filterText with
        | some t => !hasNonSpace t
        | none => false) = false := by
      rcases hproceed with h | ⟨t, ht, hns⟩
      · rw [h]
      · rw [ht]
        simp [hns]
    have hne : ¬state.rows = [] := by
      intro h
      rw [h] at hlen
      exact hlen rfl
    constructor
    · rintro (hfs | hfs) <;>
        simp [onKeyDown, Nat.pos_of_ne_zero hlen, hws, hfs, hne]
    · intro r it hfs hr0 hget
      have hget' : state.rows[r]? = some (IFilterListRow.item it) := by
        rw [List.get?_eq_getElem?] at hget
        exact hget
      have hclick : onRowClick props.onItemClick state.rows (r : Int) =
          Except.ok (if props.onItemClick then some it else none) := by
        by_cases hoc : props.onItemClick <;>
          simp [onRowClick, hoc, jsIndex_natCast, hget']
      simp [onKeyDown, Nat.pos_of_ne_zero hlen, hws, hfs, hr0, hclick, hne]

/-- Witness for C4 (amended): with a group header at row 0, Enter clicks
the first selectable row at index 1. -/
theorem c4_enter_behavior_witness :
    onKeyDown propsEnterHdr (createStateUpdate propsEnterHdr)
        PressedKey.enter false =
      Except.ok ⟨false, none, false, some itemA⟩ := by
  have h := ((c4_enter_behavior propsEnterHdr
      (createStateUpdate propsEnterHdr)).2.2 (by decide) (Or.inl rfl)).2
    1 itemA (by decide) (by decide) (by decide)
  rw [h]
  rfl
